import Mathlib

/-!
# MusicMapBackend — shallow embedding and verification

This file embeds the request handlers of `src/functions/src/index.ts`
(a Firebase Functions backend bridging a client to the Last.fm API and
Firestore) as pure Lean functions over an explicit store state, and
proves properties of the embedded code.

Conventions of the embedding:
* A JavaScript value that may be `undefined` (a destructured missing
  request field) is an `Option`; the JS truthiness test `!x` on a string
  becomes `falsy : Option String → Bool` (true for `undefined` and `""`).
* Firestore documents become Lean structures; a collection keyed by a
  string is a function `String → _` defaulting to "absent".
* Store-generated document ids are `Nat`s; `add` generates a fresh id
  strictly above every id in the collection.
* External HTTP responses are passed in as explicit parameters (the
  network is outside the embedded program).
* The MD5 digest (`crypto.createHash("md5")`) is an external library
  call and is passed to the signer as a parameter `md5`; the hex
  encoding of the digest is embedded concretely.
-/

namespace MusicMap

/-- JS truthiness test `!x` for an optional string: true when the field is
missing (`undefined`) or the empty string. -/
def falsy : Option String → Bool
  | none => true
  | some s => s.isEmpty

/-- Error taxonomy of the spec (§7). The code throws `Error` objects with
messages; the embedding records the kind of failure instead. -/
inductive Err where
  | invalidArgument
  | upstreamAuthFailed (message : String)
  | upstreamProtocolError
  | noMatchingRecords
  | storeFailure
  | generic (op : String)
deriving Repr, DecidableEq

/-- The nested `userInfo` map written by `firstLogin`. -/
structure UserInfo where
  realname : Option String
  createdAt : Option Nat
deriving Repr, DecidableEq

/-- A Session document in the `users` collection. `none` in a field means
the field is absent from the document. -/
structure SessionDoc where
  username : Option String
  lastLogin : Option Nat
  createdAt : Option Nat
  userInfo : Option UserInfo
deriving Repr, DecidableEq

/-- The `EmotionData` interface of the source. `group` and `broadgroup`
are not validated and may be absent. -/
structure EmotionData where
  trackId : String
  trackTitle : String
  artist : String
  emotion : String
  group : Option String
  broadgroup : Option String
  timestamp : Nat
deriving Repr, DecidableEq

/-- An `emotions` subcollection: documents in insertion order, each with
its store-generated id. -/
abbrev EmotionCol := List (Nat × EmotionData)

/-- One entry of a playlist's `songs` array (note the source copies the
record's `group` into the song's `emotion` field). -/
structure PlaylistSong where
  trackId : String
  trackTitle : String
  artist : String
  emotion : Option String
deriving Repr, DecidableEq

/-- The `PlaylistData` interface of the source. -/
structure PlaylistData where
  name : Option String
  group : String
  emotions : List String
  songs : List PlaylistSong
  createdAt : Nat
deriving Repr, DecidableEq

/-- The Firestore state visible to the handlers: the `users` collection
and, per session key, the `emotions` and `playlists` subcollections
(Firestore subcollections exist independently of the parent document). -/
structure Store where
  users : String → Option SessionDoc
  emotions : String → EmotionCol
  playlists : String → List (Nat × PlaylistData)

/-- The store with no documents at all. -/
def emptyStore : Store :=
  { users := fun _ => none, emotions := fun _ => [], playlists := fun _ => [] }

/-- Fresh document id for `add`: strictly greater than every id present. -/
def freshId (col : List (Nat × α)) : Nat :=
  (col.map Prod.fst).foldr max 0 + 1

/-! ## The Signer (`signRequest`) -/

/-- The fixed shared secret `API_SECRET` of the source. -/
def API_SECRET : String := "9a217efb13aae3065580091fd04b00ff"

/-- Lowercase hexadecimal digit. -/
def hexDigit (n : Nat) : Char :=
  if n < 10 then Char.ofNat (48 + n) else Char.ofNat (87 + n)

/-- One byte as two lowercase hex characters. -/
def hexByte (b : Fin 256) : List Char :=
  [hexDigit (b.val / 16), hexDigit (b.val % 16)]

/-- Lowercase hexadecimal encoding of a digest (`digest("hex")`). -/
def hexEncode (bs : List (Fin 256)) : String :=
  ⟨bs.flatMap hexByte⟩

/-- The string hashed by `signRequest`: fold over the sorted keys of the
parameter object, appending `key + params[key]`, then the secret.
Mirrors the source's loop over `Object.keys(params).sort()`. -/
def rawSig (params : List (String × String)) : String :=
  (((params.map Prod.fst).mergeSort (fun a b => a ≤ b)).foldl
    (fun acc k => acc ++ k ++ ((params.lookup k).getD "")) "") ++ API_SECRET

/-- `signRequest`, with the MD5 digest supplied as the parameter `md5`
(an external library call in the source). -/
def signRequest (md5 : String → List (Fin 256)) (params : List (String × String)) : String :=
  hexEncode (md5 (rawSig params))

/-- An injective byte encoding of strings (three bytes per character),
used to witness the abstract digest function. -/
def charBytes (c : Char) : List (Fin 256) :=
  [⟨c.toNat % 256, Nat.mod_lt _ (by omega)⟩,
   ⟨c.toNat / 256 % 256, Nat.mod_lt _ (by omega)⟩,
   ⟨c.toNat / 65536 % 256, Nat.mod_lt _ (by omega)⟩]

/-- A concrete injective `String → List (Fin 256)` function. -/
def encStr (s : String) : List (Fin 256) := s.data.flatMap charBytes

/-- The byte string described by the spec's words (§4.1): sort the
name/value pairs by name, concatenate each name immediately followed by
its value with no separators, append the shared secret. Stated over the
pairs themselves (not via key lookup) to compare against `rawSig`. -/
def specRawSig (params : List (String × String)) : String :=
  String.join ((params.mergeSort (fun a b => a.1 ≤ b.1)).map (fun p => p.1 ++ p.2))
    ++ API_SECRET

/-! ## `lastfmAuth` -/

/-- Parsed JSON answer of the Last.fm `auth.getMobileSession` call:
either an error envelope or a session object (whose `key` may be
missing/empty, as tested by `!json.session?.key`). -/
inductive AuthResp where
  | err (code : Nat) (message : String)
  | session (key : Option String) (name : String)
deriving Repr, DecidableEq

/-- `lastfmAuth`. The HTTP response is the parameter `resp`; `now` is the
server timestamp. On success the source writes the Session document with
`.set({username, lastLogin})` — a full-document set with no merge option,
so the written document has exactly those two fields. -/
def lastfmAuth (now : Nat) (st : Store) (username password : Option String)
    (resp : AuthResp) : (Except Err (String × String)) × Store :=
  if falsy username || falsy password then
    (.error .invalidArgument, st)
  else
    match resp with
    | .err _ message => (.error (.upstreamAuthFailed message), st)
    | .session key name =>
      if falsy key then (.error .upstreamProtocolError, st)
      else
        let k := key.getD ""
        (.ok (k, name),
         { st with users := fun s =>
             if s = k then
               some { username := some name, lastLogin := some now,
                      createdAt := none, userInfo := none }
             else st.users s })

/-! ## `storeEmotion` -/

/-- The destructured request fields of `storeEmotion`. -/
structure StoreEmotionArgs where
  sessionKey : Option String
  trackId : Option String
  trackTitle : Option String
  artist : Option String
  group : Option String
  broadgroup : Option String
  emotion : Option String
deriving Repr, DecidableEq

/-- The `emotionData` object built by `storeEmotion` (timestamp is
`Date.now()`). -/
def mkEmotionData (a : StoreEmotionArgs) (now : Nat) : EmotionData :=
  { trackId := a.trackId.getD "", trackTitle := a.trackTitle.getD "",
    artist := a.artist.getD "", emotion := a.emotion.getD "",
    group := a.group, broadgroup := a.broadgroup, timestamp := now }

/-- `storeEmotion`: validate the required fields, look up the session's
emotion collection by `trackId` (limit 1), update the found document in
place, else `add` a new document. Returns the result and the post-state
(unchanged on failure). -/
def storeEmotion (now : Nat) (st : Store) (a : StoreEmotionArgs) :
    (Except Err Unit) × Store :=
  if falsy a.sessionKey || falsy a.trackId || falsy a.trackTitle
      || falsy a.artist || falsy a.emotion then
    (.error .invalidArgument, st)
  else
    let sk := a.sessionKey.getD ""
    let tid := a.trackId.getD ""
    let d := mkEmotionData a now
    let col := st.emotions sk
    match col.find? (fun r => r.2.trackId == tid) with
    | some r =>
      (.ok (), { st with emotions := fun s =>
          if s = sk then col.map (fun q => if q.1 == r.1 then (q.1, d) else q)
          else st.emotions s })
    | none =>
      (.ok (), { st with emotions := fun s =>
          if s = sk then col ++ [(freshId col, d)] else st.emotions s })

/-- Run a sequence of `storeEmotion` calls (each with its own clock
value), threading the state; a failed call leaves the state unchanged. -/
def runStoreEmotions (calls : List (Nat × StoreEmotionArgs)) (st : Store) : Store :=
  calls.foldl (fun s c => (storeEmotion c.1 s c.2).2) st

/-- Number of records with the given `trackId` in a collection. -/
def tcount (col : EmotionCol) (tid : String) : Nat :=
  col.countP (fun r => r.2.trackId == tid)

/-- Well-formedness of an emotion collection: document ids are distinct
and no `trackId` occurs in more than one record. -/
def colWf (col : EmotionCol) : Prop :=
  (col.map Prod.fst).Nodup ∧ ∀ tid : String, tcount col tid ≤ 1

/-- Every session's emotion collection is well-formed. -/
def storeWf (st : Store) : Prop := ∀ sk, colWf (st.emotions sk)

/-! ## `getEmotions` -/

/-- Comparison used by `orderBy("timestamp", "desc")`. -/
def tsDesc (a b : Nat × EmotionData) : Bool :=
  b.2.timestamp ≤ a.2.timestamp

/-- `getEmotions`: lazily create the user document when absent (with
server-assigned `createdAt`/`lastLogin`), then return the session's
emotion records ordered by timestamp descending. -/
def getEmotions (now : Nat) (st : Store) (sessionKey : Option String) :
    (Except Err (List (Nat × EmotionData))) × Store :=
  if falsy sessionKey then (.error .invalidArgument, st)
  else
    let sk := sessionKey.getD ""
    let st' :=
      match st.users sk with
      | some _ => st
      | none =>
        { st with users := fun s =>
            if s = sk then
              some { username := none, lastLogin := some now,
                     createdAt := some now, userInfo := none }
            else st.users s }
    (.ok ((st'.emotions sk).mergeSort tsDesc), st')

/-! ## `deleteEmotionHistory` -/

/-- `deleteEmotionHistory`: snapshot the session's emotion collection,
delete every snapshotted document in one batch, commit. The batch commit
is atomic (Firestore `WriteBatch.commit`): `commitOk` says whether it
succeeds; on failure nothing is applied. -/
def deleteEmotionHistory (commitOk : Bool) (st : Store)
    (sessionKey : Option String) : (Except Err Unit) × Store :=
  if falsy sessionKey then (.error .invalidArgument, st)
  else
    let sk := sessionKey.getD ""
    let snapshot := (st.emotions sk).map Prod.fst
    if commitOk then
      (.ok (), { st with emotions := fun s =>
          if s = sk then (st.emotions s).filter (fun r => !(snapshot.contains r.1))
          else st.emotions s })
    else
      (.error .storeFailure, st)

/-! ## `firstLogin` -/

/-- Parsed JSON answer of the Last.fm `user.getInfo` call made by
`firstLogin`: an error envelope, or a user object whose `realname` may be
missing (`lastfmData.user?.realname`). -/
inductive UserInfoResp where
  | err (code : Nat) (message : String)
  | user (realname : Option String)
deriving Repr, DecidableEq

/-- Observable accesses of `firstLogin`, recorded in order. -/
inductive Eff where
  | storeGet (key : Option String)
  | httpUserInfo (sessionKey : Option String)
  | storeSet (key : Option String)
deriving Repr, DecidableEq

/-- `firstLogin`: no input validation at all — the handler goes straight
to the `users/{uid}` lookup inside its try/catch. A missing or empty
`uid` makes the document reference itself throw, which the catch turns
into the one generic error. If the document already holds a truthy
`userInfo.realname` the handler short-circuits; otherwise it calls
`user.getInfo` with `sessionKey` (response passed as `resp`), computes
`realname || null`, and merge-sets `userInfo = {realname, createdAt}`
onto the `uid` document, preserving its other fields. -/
def firstLogin (now : Nat) (st : Store) (sessionKey uid : Option String)
    (resp : UserInfoResp) : (Except Err Bool) × Store × List Eff :=
  if falsy uid then
    (.error (.generic "Failed to fetch real name"), st, [.storeGet uid])
  else
    let u := uid.getD ""
    let short :=
      match st.users u with
      | some doc =>
        match doc.userInfo with
        | some ui => !(falsy ui.realname)
        | none => false
      | none => false
    if short then (.ok true, st, [.storeGet uid])
    else
      match resp with
      | .err _ _ =>
        (.error (.generic "Failed to fetch real name"), st,
         [.storeGet uid, .httpUserInfo sessionKey])
      | .user rn =>
        let realname : Option String := if falsy rn then none else rn
        let base := (st.users u).getD
          { username := none, lastLogin := none, createdAt := none, userInfo := none }
        let newUI : UserInfo := { realname := realname, createdAt := some now }
        (.ok true,
         { st with users := fun s =>
             if s = u then some { base with userInfo := some newUI }
             else st.users s },
         [.storeGet uid, .httpUserInfo sessionKey, .storeSet uid])

/-! ## `createPlaylists` -/

/-- The Firestore `where("group", "in", emotions)` membership test: a
document matches when its `group` field is present and equal to one of
the supplied values. -/
def matchGroup (g : Option String) (emos : List String) : Bool :=
  match g with
  | some s => emos.contains s
  | none => false

/-- `createPlaylists`: validate (`name` is NOT checked), filter the
session's emotion records by group membership, fail when nothing
matches, otherwise snapshot the matches into a new playlist document
(note the source stores the record's `group` into each song's `emotion`
field and returns `playlistData.group` — an input field — as the
`playlistId`). -/
def createPlaylists (now : Nat) (st : Store)
    (sessionKey group name : Option String) (emotions : Option (List String)) :
    (Except Err String) × Store :=
  if falsy sessionKey || falsy group || emotions.isNone
      || (emotions.getD []).isEmpty then
    (.error .invalidArgument, st)
  else
    let sk := sessionKey.getD ""
    let emos := emotions.getD []
    let matching := (st.emotions sk).filter (fun r => matchGroup r.2.group emos)
    if matching.isEmpty then
      (.error .noMatchingRecords, st)
    else
      let songs := matching.map (fun r =>
        { trackId := r.2.trackId, trackTitle := r.2.trackTitle,
          artist := r.2.artist, emotion := r.2.group : PlaylistSong })
      let pd : PlaylistData :=
        { name := name, group := group.getD "", emotions := emos,
          songs := songs, createdAt := now }
      (.ok pd.group,
       { st with playlists := fun s =>
           if s = sk then st.playlists s ++ [(freshId (st.playlists s), pd)]
           else st.playlists s })

/-! ## Sample inputs used by witnesses -/

/-- Sample tagging request: track `T1` labelled `happy`. -/
def sampleArgs₁ : StoreEmotionArgs :=
  { sessionKey := some "SK1", trackId := some "T1", trackTitle := some "Song",
    artist := some "Artist", group := some "g1", broadgroup := some "b1",
    emotion := some "happy" }

/-- Re-tagging of track `T1` with `sad` (same session, same track). -/
def sampleArgs₂ : StoreEmotionArgs :=
  { sampleArgs₁ with emotion := some "sad", group := some "g2" }

/-- Tagging of a second track `T2` in the same session. -/
def sampleArgs₃ : StoreEmotionArgs :=
  { sampleArgs₁ with trackId := some "T2" }

/-- A tagging request with the required `artist` field missing. -/
def sampleArgsBad : StoreEmotionArgs :=
  { sampleArgs₁ with artist := none }

/-- A store holding one session `SK1` with one emotion record for track
`T1` in group `happy`, and a fully populated session document. -/
def sampleStore : Store :=
  { users := fun s =>
      if s = "SK1" then
        some { username := some "old", lastLogin := some 1, createdAt := some 1,
               userInfo := some { realname := some "R", createdAt := some 1 } }
      else none,
    emotions := fun s =>
      if s = "SK1" then
        [(1, { trackId := "T1", trackTitle := "Song", artist := "Artist",
               emotion := "joyful", group := some "happy",
               broadgroup := some "b1", timestamp := 3 })]
      else [],
    playlists := fun _ => [] }

/-! ## Helper lemmas: strings and association-list lookup -/

theorem join_nil : String.join [] = "" := rfl

theorem join_cons (x : String) (xs : List String) :
    String.join (x :: xs) = x ++ String.join xs := by
  apply String.ext
  simp [String.join_eq]

theorem foldl_append_join (f : α → String) (l : List α) (acc : String) :
    l.foldl (fun a k => a ++ f k) acc = acc ++ String.join (l.map f) := by
  induction l generalizing acc with
  | nil => simp [join_nil]
  | cons x xs ih => simp [join_cons, ih, String.append_assoc]

theorem lookup_eq_some_of_nodup {l : List (String × String)} {k v : String}
    (hnd : (l.map Prod.fst).Nodup) (hm : (k, v) ∈ l) :
    l.lookup k = some v := by
  induction l with
  | nil => cases hm
  | cons a tl ih =>
    simp only [List.map_cons, List.nodup_cons] at hnd
    rcases List.mem_cons.mp hm with h | h
    · subst h
      simp [List.lookup]
    · have hka : k ≠ a.1 := by
        intro hk
        exact hnd.1 (hk ▸ List.mem_map_of_mem Prod.fst h)
      simp [List.lookup, beq_eq_false_iff_ne.mpr hka, ih hnd.2 h]

theorem lookup_mem {l : List (String × String)} {k v : String}
    (h : l.lookup k = some v) : (k, v) ∈ l := by
  induction l with
  | nil => simp [List.lookup] at h
  | cons a tl ih =>
    by_cases hk : k = a.1
    · subst hk
      simp only [List.lookup, beq_self_eq_true] at h
      have hv : a.2 = v := by injection h
      rw [← hv]
      simp
    · simp only [List.lookup, beq_eq_false_iff_ne.mpr hk] at h
      exact List.mem_cons_of_mem _ (ih h)

theorem lookup_eq_none_of_not_mem {l : List (String × String)} {k : String}
    (h : k ∉ l.map Prod.fst) : l.lookup k = none := by
  induction l with
  | nil => rfl
  | cons a tl ih =>
    simp only [List.map_cons, List.mem_cons, not_or] at h
    simp [List.lookup, beq_eq_false_iff_ne.mpr h.1, ih h.2]

theorem mem_map_fst_of_lookup_some {l : List (String × String)} {k v : String}
    (h : l.lookup k = some v) : k ∈ l.map Prod.fst :=
  List.mem_map_of_mem Prod.fst (lookup_mem h)

/-- With no duplicate keys, `lookup` is invariant under permutation. -/
theorem lookup_perm {p q : List (String × String)} (hpq : p.Perm q)
    (hnd : (p.map Prod.fst).Nodup) (k : String) :
    p.lookup k = q.lookup k := by
  have hndq : (q.map Prod.fst).Nodup := ((hpq.map Prod.fst).nodup_iff).mp hnd
  cases hcase : p.lookup k with
  | some v =>
    exact (lookup_eq_some_of_nodup hndq (hpq.mem_iff.mp (lookup_mem hcase))).symm
  | none =>
    cases hq : q.lookup k with
    | none => rfl
    | some w =>
      have : (k, w) ∈ p := hpq.mem_iff.mpr (lookup_mem hq)
      rw [lookup_eq_some_of_nodup hnd this] at hcase
      cases hcase

/-! ## Helper lemmas: sorting -/

theorem sorted_mergeSort_le (l : List String) :
    ((l.mergeSort (fun a b => a ≤ b)).Pairwise (· ≤ ·)) := by
  have h := @List.sorted_mergeSort String (fun a b : String => a ≤ b)
    (fun a b c h₁ h₂ => by
      simp only [decide_eq_true_eq] at *
      exact le_trans h₁ h₂)
    (fun a b => by
      simpa [Bool.or_eq_true, decide_eq_true_eq] using le_total a b) l
  exact h.imp (fun h => by simpa using h)

/-- Two key lists that are permutations of each other sort identically. -/
theorem mergeSort_eq_of_perm {l₁ l₂ : List String} (h : l₁.Perm l₂) :
    l₁.mergeSort (fun a b => a ≤ b) = l₂.mergeSort (fun a b => a ≤ b) := by
  apply @List.eq_of_perm_of_sorted String (· ≤ ·) _ _ _
    (((List.mergeSort_perm l₁ _).trans h).trans (List.mergeSort_perm l₂ _).symm)
  · exact sorted_mergeSort_le l₁
  · exact sorted_mergeSort_le l₂

theorem sorted_pairs_keys (params : List (String × String)) :
    ((params.mergeSort (fun a b => a.1 ≤ b.1)).map Prod.fst).Pairwise (· ≤ ·) := by
  have h := @List.sorted_mergeSort (String × String) (fun a b => a.1 ≤ b.1)
    (fun a b c h₁ h₂ => by
      simp only [decide_eq_true_eq] at *
      exact le_trans h₁ h₂)
    (fun a b => by
      simpa [Bool.or_eq_true, decide_eq_true_eq] using le_total a.1 b.1) params
  exact h.map Prod.fst (fun a b hab => by simpa using hab)

/-- Sorting the pairs by key, then projecting the keys, is the same as
sorting the keys. -/
theorem keys_of_sorted_pairs (params : List (String × String)) :
    (params.mergeSort (fun a b => a.1 ≤ b.1)).map Prod.fst
      = (params.map Prod.fst).mergeSort (fun a b => a ≤ b) := by
  apply @List.eq_of_perm_of_sorted String (· ≤ ·) _ _ _
    (((List.mergeSort_perm params _).map Prod.fst).trans
      (List.mergeSort_perm (params.map Prod.fst) _).symm)
  · exact sorted_pairs_keys params
  · exact sorted_mergeSort_le _

/-- With no duplicate parameter names, the byte string hashed by the
source's `signRequest` is exactly the string described by the spec. -/
theorem rawSig_eq_specRawSig {params : List (String × String)}
    (hnd : (params.map Prod.fst).Nodup) : rawSig params = specRawSig params := by
  unfold rawSig specRawSig
  simp only [String.append_assoc]
  rw [foldl_append_join, String.empty_append, ← keys_of_sorted_pairs, List.map_map]
  congr 1
  apply congrArg String.join
  apply List.map_congr_left
  intro p hp
  have hmem : p ∈ params := (List.mem_mergeSort).mp hp
  simp [Function.comp, lookup_eq_some_of_nodup hnd hmem]

/-! ## Helper lemmas: hex encoding -/

theorem hexDigit_mem_of_lt {n : Nat} (h : n < 16) :
    hexDigit n ∈ "0123456789abcdef".data := by
  have hfin : ∀ m : Fin 16, hexDigit m.val ∈ "0123456789abcdef".data := by decide
  exact hfin ⟨n, h⟩

theorem hexEncode_chars (bs : List (Fin 256)) :
    ∀ c ∈ (hexEncode bs).data, c ∈ "0123456789abcdef".data := by
  intro c hc
  have hc' : c ∈ bs.flatMap hexByte := hc
  rcases List.mem_flatMap.mp hc' with ⟨b, _, hcb⟩
  unfold hexByte at hcb
  rcases List.mem_cons.mp hcb with h | h
  · exact h ▸ hexDigit_mem_of_lt (by omega)
  · rcases List.mem_cons.mp h with h | h
    · exact h ▸ hexDigit_mem_of_lt (Nat.mod_lt _ (by omega))
    · cases h

theorem hexDigit_inj_fin : ∀ a b : Fin 16, hexDigit a.val = hexDigit b.val → a = b := by
  decide

theorem hexByte_inj {a b : Fin 256} (h : hexByte a = hexByte b) : a = b := by
  unfold hexByte at h
  injection h with h1 h2
  injection h2 with h2 _
  have hd1 : (⟨a.val / 16, by omega⟩ : Fin 16) = ⟨b.val / 16, by omega⟩ :=
    hexDigit_inj_fin _ _ h1
  have hd2 : (⟨a.val % 16, Nat.mod_lt _ (by omega)⟩ : Fin 16)
      = ⟨b.val % 16, Nat.mod_lt _ (by omega)⟩ :=
    hexDigit_inj_fin _ _ h2
  have e1 : a.val / 16 = b.val / 16 := congrArg Fin.val hd1
  have e2 : a.val % 16 = b.val % 16 := congrArg Fin.val hd2
  exact Fin.ext (by omega)

theorem flatMap_hexByte_inj : ∀ {l₁ l₂ : List (Fin 256)},
    l₁.flatMap hexByte = l₂.flatMap hexByte → l₁ = l₂ := by
  intro l₁
  induction l₁ with
  | nil =>
    intro l₂ h
    cases l₂ with
    | nil => rfl
    | cons b bs => simp [hexByte] at h
  | cons a as ih =>
    intro l₂ h
    cases l₂ with
    | nil => simp [hexByte] at h
    | cons b bs =>
      simp only [List.flatMap_cons] at h
      unfold hexByte at h
      simp only [List.cons_append, List.nil_append] at h
      injection h with h1 h2
      injection h2 with h2 h3
      have hab : a = b := hexByte_inj (by unfold hexByte; rw [h1, h2])
      rw [hab, ih h3]

theorem hexEncode_inj {l₁ l₂ : List (Fin 256)}
    (h : hexEncode l₁ = hexEncode l₂) : l₁ = l₂ := by
  unfold hexEncode at h
  injection h with h
  exact flatMap_hexByte_inj h

/-! ## Helper lemmas: rawSig decomposition -/

theorem join_append (xs ys : List String) :
    String.join (xs ++ ys) = String.join xs ++ String.join ys := by
  apply String.ext
  simp [String.join_eq]

theorem rawSig_eq_join (params : List (String × String)) :
    rawSig params
      = String.join (((params.map Prod.fst).mergeSort (fun a b => a ≤ b)).map
          (fun k => k ++ ((params.lookup k).getD ""))) ++ API_SECRET := by
  unfold rawSig
  simp only [String.append_assoc]
  rw [foldl_append_join, String.empty_append]

/-- Lookups in the two lists that differ only in the value stored at key
`k` agree at every other key. -/
theorem lookup_value_change {k k' : String} (hne : k' ≠ k)
    (l₁ l₂ : List (String × String)) (v v' : String) :
    (l₁ ++ (k, v) :: l₂).lookup k' = (l₁ ++ (k, v') :: l₂).lookup k' := by
  induction l₁ with
  | nil => simp [List.lookup, beq_eq_false_iff_ne.mpr hne]
  | cons a tl ih => simp [List.lookup, ih]

/-- Splitting a joined map at a distinguished element. -/
theorem join_map_middle (f : String → String) (A B : List String) (k : String) :
    String.join ((A ++ k :: B).map f)
      = String.join (A.map f) ++ (f k ++ String.join (B.map f)) := by
  rw [List.map_append, join_append, List.map_cons, join_cons]

/-- `rawSig` only depends on the parameter mapping, not the entry order. -/
theorem rawSig_perm {p q : List (String × String)} (hpq : p.Perm q)
    (hnd : (p.map Prod.fst).Nodup) : rawSig p = rawSig q := by
  unfold rawSig
  rw [mergeSort_eq_of_perm (hpq.map Prod.fst)]
  have hl : (fun (acc k' : String) => acc ++ k' ++ ((p.lookup k').getD ""))
      = (fun acc k' => acc ++ k' ++ ((q.lookup k').getD "")) := by
    funext acc k'
    rw [lookup_perm hpq hnd k']
  rw [hl]

/-- Changing the value stored at one key changes the hashed byte string. -/
theorem rawSig_value_change {l₁ l₂ : List (String × String)} {k v v' : String}
    (hnd : ((l₁ ++ (k, v) :: l₂).map Prod.fst).Nodup) (hvv : v ≠ v') :
    rawSig (l₁ ++ (k, v) :: l₂) ≠ rawSig (l₁ ++ (k, v') :: l₂) := by
  intro heq
  have hkeys : ((l₁ ++ (k, v) :: l₂).map Prod.fst)
      = ((l₁ ++ (k, v') :: l₂).map Prod.fst) := by simp
  have hndq : ((l₁ ++ (k, v') :: l₂).map Prod.fst).Nodup := hkeys ▸ hnd
  rw [rawSig_eq_join, rawSig_eq_join, ← hkeys] at heq
  have hkmem : k ∈ ((l₁ ++ (k, v) :: l₂).map Prod.fst).mergeSort
      (fun a b => a ≤ b) := by
    rw [List.mem_mergeSort]
    simp
  have hKnd : (((l₁ ++ (k, v) :: l₂).map Prod.fst).mergeSort
      (fun a b => a ≤ b)).Nodup :=
    ((List.mergeSort_perm _ _).nodup_iff).mpr hnd
  rcases List.append_of_mem hkmem with ⟨A, B, hAB⟩
  rw [hAB] at hKnd heq
  have hknA : k ∉ A := by
    intro hkA
    rcases List.nodup_append.mp hKnd with ⟨_, _, hdisj⟩
    exact hdisj hkA (by simp)
  have hknB : k ∉ B := by
    rcases List.nodup_append.mp hKnd with ⟨_, hcons, _⟩
    exact (List.nodup_cons.mp hcons).1
  rw [join_map_middle, join_map_middle] at heq
  have hlp : (l₁ ++ (k, v) :: l₂).lookup k = some v :=
    lookup_eq_some_of_nodup hnd (by simp)
  have hlq : (l₁ ++ (k, v') :: l₂).lookup k = some v' :=
    lookup_eq_some_of_nodup hndq (by simp)
  have hfA : A.map (fun k' => k' ++ (((l₁ ++ (k, v) :: l₂).lookup k').getD ""))
      = A.map (fun k' => k' ++ (((l₁ ++ (k, v') :: l₂).lookup k').getD "")) := by
    apply List.map_congr_left
    intro a ha
    have hak : a ≠ k := fun h => hknA (h ▸ ha)
    rw [lookup_value_change hak]
  have hfB : B.map (fun k' => k' ++ (((l₁ ++ (k, v) :: l₂).lookup k').getD ""))
      = B.map (fun k' => k' ++ (((l₁ ++ (k, v') :: l₂).lookup k').getD "")) := by
    apply List.map_congr_left
    intro a ha
    have hak : a ≠ k := fun h => hknB (h ▸ ha)
    rw [lookup_value_change hak]
  rw [hfA, hfB, hlp, hlq] at heq
  have hdata := congrArg String.data heq
  simp only [String.data_append, List.append_assoc, Option.getD_some] at hdata
  have h1 := List.append_cancel_left hdata
  have h2 := List.append_cancel_left h1
  have h3 := List.append_cancel_right h2
  exact hvv (String.ext h3)

theorem char_toNat_lt (c : Char) : c.toNat < 1114112 := by
  rcases c.valid with h | h
  · unfold Char.toNat
    omega
  · unfold Char.toNat
    omega

theorem charBytes_det {a b : Char} (h0 : a.toNat % 256 = b.toNat % 256)
    (h1 : a.toNat / 256 % 256 = b.toNat / 256 % 256)
    (h2 : a.toNat / 65536 % 256 = b.toNat / 65536 % 256) : a = b := by
  have ha := char_toNat_lt a
  have hb := char_toNat_lt b
  have : a.toNat = b.toNat := by omega
  exact Char.eq_of_val_eq (UInt32.ext this)

theorem flatMap_charBytes_inj : ∀ {l₁ l₂ : List Char},
    l₁.flatMap charBytes = l₂.flatMap charBytes → l₁ = l₂ := by
  intro l₁
  induction l₁ with
  | nil =>
    intro l₂ h
    cases l₂ with
    | nil => rfl
    | cons b bs => simp [charBytes] at h
  | cons a as ih =>
    intro l₂ h
    cases l₂ with
    | nil => simp [charBytes] at h
    | cons b bs =>
      simp only [List.flatMap_cons] at h
      unfold charBytes at h
      simp only [List.cons_append, List.nil_append] at h
      injection h with e0 h
      injection h with e1 h
      injection h with e2 h
      have hab : a = b :=
        charBytes_det (congrArg Fin.val e0) (congrArg Fin.val e1)
          (congrArg Fin.val e2)
      rw [hab, ih h]

theorem encStr_inj : Function.Injective encStr := by
  intro s t h
  exact String.ext (flatMap_charBytes_inj h)

/-! ## Claim C2 -/

/-- C2: For every mapping from parameter names to string values (no
duplicate names, as in a JS object), the Signer produces exactly the
lowercase-hexadecimal digest of the byte string formed by concatenating
each parameter name immediately followed by its value, in lexicographic
order of the names, with no separators, followed by the fixed shared
secret (`specRawSig`, written from the spec's words); moreover every
character of the output is a lowercase hexadecimal digit. The digest
function itself is the external `md5` parameter. -/
theorem signRequest_is_spec_digest (md5 : String → List (Fin 256))
    (params : List (String × String)) (hnd : (params.map Prod.fst).Nodup) :
    signRequest md5 params = hexEncode (md5 (specRawSig params))
      ∧ ∀ c ∈ (signRequest md5 params).data, c ∈ "0123456789abcdef".data := by
  refine ⟨?_, hexEncode_chars _⟩
  unfold signRequest
  rw [rawSig_eq_specRawSig hnd]

/-- Witness for C2 at a concrete two-entry mapping. -/
theorem signRequest_is_spec_digest_witness :
    signRequest (fun _ => []) [("b", "2"), ("a", "1")]
        = hexEncode ((fun _ => ([] : List (Fin 256)))
            (specRawSig [("b", "2"), ("a", "1")]))
      ∧ ∀ c ∈ (signRequest (fun _ => []) [("b", "2"), ("a", "1")]).data,
          c ∈ "0123456789abcdef".data :=
  signRequest_is_spec_digest (fun _ => []) [("b", "2"), ("a", "1")] (by decide)

/-! ## Claim C3 -/

/-- C3: The Signer's output is invariant under any reordering of the
mapping's entries, and — whenever the digest function is injective on the
byte strings involved (collision-freeness, which the spec's "one-way
hash" idealizes) — changing any single entry's value changes the
signature. -/
theorem signRequest_reorder_invariant_value_sensitive :
    (∀ (md5 : String → List (Fin 256)) (p q : List (String × String)),
        p.Perm q → (p.map Prod.fst).Nodup →
        signRequest md5 p = signRequest md5 q)
    ∧ (∀ (md5 : String → List (Fin 256)), Function.Injective md5 →
        ∀ (l₁ l₂ : List (String × String)) (k v v' : String),
          ((l₁ ++ (k, v) :: l₂).map Prod.fst).Nodup → v ≠ v' →
          signRequest md5 (l₁ ++ (k, v) :: l₂)
            ≠ signRequest md5 (l₁ ++ (k, v') :: l₂)) := by
  constructor
  · intro md5 p q hpq hnd
    unfold signRequest
    rw [rawSig_perm hpq hnd]
  · intro md5 hinj l₁ l₂ k v v' hnd hvv heq
    exact rawSig_value_change hnd hvv (hinj (hexEncode_inj heq))

/-- Witness for C3: a concrete reordering leaves the signature unchanged,
and with the concrete injective digest `encStr` a concrete value change
changes it. -/
theorem signRequest_reorder_invariant_value_sensitive_witness :
    signRequest (fun _ => []) [("a", "1"), ("b", "2")]
        = signRequest (fun _ => []) [("b", "2"), ("a", "1")]
      ∧ signRequest encStr [("a", "1")] ≠ signRequest encStr [("a", "2")] :=
  ⟨signRequest_reorder_invariant_value_sensitive.1 (fun _ => [])
      [("a", "1"), ("b", "2")] [("b", "2"), ("a", "1")] (by decide) (by decide),
   by
    have h := signRequest_reorder_invariant_value_sensitive.2 encStr encStr_inj
      [] [] "a" "1" "2" (by decide) (by decide)
    simpa using h⟩

/-! ## Helper lemmas: the emotion upsert -/

theorem le_foldr_max (l : List Nat) : ∀ x ∈ l, x ≤ l.foldr max 0 := by
  induction l with
  | nil => intro x hx; cases hx
  | cons a tl ih =>
    intro x hx
    rcases List.mem_cons.mp hx with h | h
    · subst h
      exact le_max_left _ _
    · exact le_trans (ih x h) (le_max_right _ _)

theorem freshId_not_mem (col : List (Nat × α)) :
    freshId col ∉ col.map Prod.fst := by
  intro h
  have := le_foldr_max _ _ h
  unfold freshId at this
  omega

/-- Updating the found record in place does not change any per-`trackId`
record count, provided the document ids are distinct and the new data
keeps the found record's `trackId`. -/
theorem tcount_map_update {col : EmotionCol} {r : Nat × EmotionData}
    {d : EmotionData} (hnd : (col.map Prod.fst).Nodup) (hr : r ∈ col)
    (htid : d.trackId = r.2.trackId) (tid : String) :
    tcount (col.map (fun q => if q.1 == r.1 then (q.1, d) else q)) tid
      = tcount col tid := by
  unfold tcount
  rw [List.countP_map]
  apply List.countP_congr
  intro q hq
  by_cases hqr : q.1 = r.1
  · have : q = r := List.inj_on_of_nodup_map hnd hq hr hqr
    subst this
    simp [htid]
  · simp [hqr]

theorem map_fst_update (col : EmotionCol) (r : Nat × EmotionData)
    (d : EmotionData) :
    (col.map (fun q => if q.1 == r.1 then (q.1, d) else q)).map Prod.fst
      = col.map Prod.fst := by
  rw [List.map_map]
  apply List.map_congr_left
  intro q _
  by_cases hqr : q.1 = r.1 <;> simp [hqr]

/-- If exactly one element satisfies the predicate and `m` is a
satisfying member, the filter is the singleton `[m]`. -/
theorem filter_eq_singleton_of_countP_one {l : List α} {p : α → Bool} {m : α}
    (h1 : l.countP p = 1) (hm : m ∈ l) (hpm : p m = true) :
    l.filter p = [m] := by
  induction l with
  | nil => cases hm
  | cons a tl ih =>
    rw [List.countP_cons] at h1
    by_cases hpa : p a = true
    · rw [if_pos hpa] at h1
      have htl : tl.countP p = 0 := by omega
      have hma : m = a := by
        rcases List.mem_cons.mp hm with h | h
        · exact h
        · exfalso
          have : 0 < tl.countP p := List.countP_pos_iff.mpr ⟨m, h, hpm⟩
          omega
      subst hma
      rw [List.filter_cons_of_pos hpa]
      have : tl.filter p = [] := List.filter_eq_nil_iff.mpr (by
        intro x hx hpx
        have : 0 < tl.countP p := List.countP_pos_iff.mpr ⟨x, hx, hpx⟩
        omega)
      rw [this]
    · have hpa' : p a = false := by
        cases hv : p a
        · rfl
        · exact absurd hv hpa
      rw [if_neg hpa] at h1
      have hmtl : m ∈ tl := by
        rcases List.mem_cons.mp hm with h | h
        · subst h
          rw [hpm] at hpa'
          cases hpa'
        · exact h
      rw [List.filter_cons_of_neg (by simp [hpa'])]
      exact ih (by omega) hmtl

theorem storeEmotion_invalid_eq {now : Nat} {st : Store} {a : StoreEmotionArgs}
    (h : (falsy a.sessionKey || falsy a.trackId || falsy a.trackTitle
          || falsy a.artist || falsy a.emotion) = true) :
    storeEmotion now st a = (.error .invalidArgument, st) := by
  unfold storeEmotion
  simp [h]

theorem storeEmotion_found_eq {now : Nat} {st : Store} {a : StoreEmotionArgs}
    {r : Nat × EmotionData}
    (hv : (falsy a.sessionKey || falsy a.trackId || falsy a.trackTitle
          || falsy a.artist || falsy a.emotion) = false)
    (hfind : (st.emotions (a.sessionKey.getD "")).find?
        (fun q => q.2.trackId == a.trackId.getD "") = some r) :
    storeEmotion now st a = (.ok (), { st with
      emotions := fun s =>
                    if s = a.sessionKey.getD "" then
                      (st.emotions (a.sessionKey.getD "")).map
                        (fun q => if q.1 == r.1 then (q.1, mkEmotionData a now) else q)
                    else st.emotions s }) := by
  unfold storeEmotion
  simp only [hv, Bool.false_eq_true, if_false, hfind]

theorem storeEmotion_notfound_eq {now : Nat} {st : Store} {a : StoreEmotionArgs}
    (hv : (falsy a.sessionKey || falsy a.trackId || falsy a.trackTitle
          || falsy a.artist || falsy a.emotion) = false)
    (hfind : (st.emotions (a.sessionKey.getD "")).find?
        (fun q => q.2.trackId == a.trackId.getD "") = none) :
    storeEmotion now st a = (.ok (), { st with
      emotions := fun s =>
                    if s = a.sessionKey.getD "" then
                      st.emotions (a.sessionKey.getD "")
                        ++ [(freshId (st.emotions (a.sessionKey.getD "")),
                             mkEmotionData a now)]
                    else st.emotions s }) := by
  unfold storeEmotion
  simp only [hv, Bool.false_eq_true, if_false, hfind]

/-- The well-formed-collections invariant is preserved by every
`storeEmotion` call, successful or not. -/
theorem storeEmotion_preserves_storeWf (now : Nat) (st : Store)
    (a : StoreEmotionArgs) (h : storeWf st) :
    storeWf (storeEmotion now st a).2 := by
  by_cases hv : (falsy a.sessionKey || falsy a.trackId || falsy a.trackTitle
      || falsy a.artist || falsy a.emotion) = true
  · rw [storeEmotion_invalid_eq hv]
    exact h
  · rw [Bool.not_eq_true] at hv
    set sk := a.sessionKey.getD "" with hsk
    set tid := a.trackId.getD "" with htid
    cases hfind : (st.emotions sk).find? (fun q => q.2.trackId == tid) with
    | some r =>
      rw [storeEmotion_found_eq hv hfind, ← hsk]
      intro s
      dsimp only
      by_cases hs : s = sk
      · rw [if_pos hs]
        have hwf := h sk
        have hrmem : r ∈ st.emotions sk := List.mem_of_find?_eq_some hfind
        have hrt : (mkEmotionData a now).trackId = r.2.trackId := by
          have := List.find?_some hfind
          have : r.2.trackId = tid := eq_of_beq this
          simp [mkEmotionData, this, htid]
        constructor
        · rw [map_fst_update]
          exact hwf.1
        · intro t
          rw [tcount_map_update hwf.1 hrmem hrt]
          exact hwf.2 t
      · rw [if_neg hs]
        exact h s
    | none =>
      rw [storeEmotion_notfound_eq hv hfind, ← hsk]
      intro s
      dsimp only
      by_cases hs : s = sk
      · rw [if_pos hs]
        have hwf := h sk
        constructor
        · rw [List.map_append, List.map_singleton]
          rw [List.nodup_append]
          refine ⟨hwf.1, List.nodup_singleton _, ?_⟩
          intro x hx hx'
          rcases List.mem_singleton.mp hx' with rfl
          exact freshId_not_mem _ hx
        · intro t
          have hzero : tcount (st.emotions sk) tid = 0 := by
            unfold tcount
            rw [List.countP_eq_zero]
            intro q hq
            exact (List.find?_eq_none.mp hfind) q hq
          unfold tcount at *
          rw [List.countP_append]
          by_cases ht : ((mkEmotionData a now).trackId == t) = true
          · have : t = tid := by
              have := eq_of_beq ht
              simpa [mkEmotionData, htid] using this.symm
            subst this
            simp [hzero, List.countP_cons, ht]
          · have hwt := hwf.2 t
            unfold tcount at hwt
            simp [List.countP_cons, ht]
            omega
      · rw [if_neg hs]
        exact h s

/-- After any successful `storeEmotion` call on a well-formed state, the
session's collection holds exactly one record with the call's `trackId`,
and its data is the call's data. -/
theorem storeEmotion_filter_eq (now : Nat) (st : Store) (a : StoreEmotionArgs)
    (hv : (falsy a.sessionKey || falsy a.trackId || falsy a.trackTitle
          || falsy a.artist || falsy a.emotion) = false)
    (hwf : colWf (st.emotions (a.sessionKey.getD ""))) :
    ∃ id, (((storeEmotion now st a).2.emotions (a.sessionKey.getD "")).filter
        (fun q => q.2.trackId == a.trackId.getD ""))
      = [(id, mkEmotionData a now)] := by
  cases hfind : (st.emotions (a.sessionKey.getD "")).find?
      (fun q => q.2.trackId == a.trackId.getD "") with
  | some r =>
    refine ⟨r.1, ?_⟩
    rw [storeEmotion_found_eq hv hfind]
    dsimp only
    rw [if_pos rfl]
    have hrmem : r ∈ st.emotions (a.sessionKey.getD "") :=
      List.mem_of_find?_eq_some hfind
    have hrp' := List.find?_some hfind
    have hrp : (r.2.trackId == a.trackId.getD "") = true := hrp'
    have hrt : (mkEmotionData a now).trackId = r.2.trackId := by
      simp [mkEmotionData, eq_of_beq hrp]
    apply filter_eq_singleton_of_countP_one
    · have hle := hwf.2 (a.trackId.getD "")
      unfold tcount at hle
      have hcnt := tcount_map_update (d := mkEmotionData a now) hwf.1 hrmem hrt
        (a.trackId.getD "")
      unfold tcount at hcnt
      rw [hcnt]
      have hpos : 0 < (st.emotions (a.sessionKey.getD "")).countP
          (fun q => q.2.trackId == a.trackId.getD "") :=
        List.countP_pos_iff.mpr ⟨r, hrmem, hrp⟩
      omega
    · exact List.mem_map.mpr ⟨r, hrmem, by simp⟩
    · simp [mkEmotionData]
  | none =>
    refine ⟨freshId (st.emotions (a.sessionKey.getD "")), ?_⟩
    rw [storeEmotion_notfound_eq hv hfind]
    dsimp only
    rw [if_pos rfl]
    rw [List.filter_append]
    have h1 : (st.emotions (a.sessionKey.getD "")).filter
        (fun q => q.2.trackId == a.trackId.getD "") = [] :=
      List.filter_eq_nil_iff.mpr (List.find?_eq_none.mp hfind)
    rw [h1]
    simp [mkEmotionData]

/-- Any sequence of `storeEmotion` calls preserves the invariant. -/
theorem runStoreEmotions_wf (calls : List (Nat × StoreEmotionArgs)) :
    ∀ st : Store, storeWf st → storeWf (runStoreEmotions calls st) := by
  induction calls with
  | nil => intro st h; exact h
  | cons c tl ih =>
    intro st h
    exact ih _ (storeEmotion_preserves_storeWf c.1 st c.2 h)

theorem storeWf_empty : storeWf emptyStore := by
  intro sk
  constructor
  · exact List.nodup_nil
  · intro tid
    simp [tcount, emptyStore]

/-- Tagging two distinct tracks in an initially empty session stores two
records, one per track. -/
theorem storeEmotion_two_tracks (st : Store) (now₁ now₂ : Nat)
    (a₁ a₂ : StoreEmotionArgs) (sk t₁ t₂ : String)
    (hempty : st.emotions sk = [])
    (hsk₁ : a₁.sessionKey = some sk) (hsk₂ : a₂.sessionKey = some sk)
    (ht₁ : a₁.trackId = some t₁) (ht₂ : a₂.trackId = some t₂)
    (hne : t₁ ≠ t₂)
    (hv₁ : (falsy a₁.sessionKey || falsy a₁.trackId || falsy a₁.trackTitle
        || falsy a₁.artist || falsy a₁.emotion) = false)
    (hv₂ : (falsy a₂.sessionKey || falsy a₂.trackId || falsy a₂.trackTitle
        || falsy a₂.artist || falsy a₂.emotion) = false) :
    ((storeEmotion now₂ (storeEmotion now₁ st a₁).2 a₂).2).emotions sk
      = [(1, mkEmotionData a₁ now₁), (2, mkEmotionData a₂ now₂)] := by
  have hgd₁ : a₁.sessionKey.getD "" = sk := by rw [hsk₁]; rfl
  have hgd₂ : a₂.sessionKey.getD "" = sk := by rw [hsk₂]; rfl
  have htd₁ : a₁.trackId.getD "" = t₁ := by rw [ht₁]; rfl
  have htd₂ : a₂.trackId.getD "" = t₂ := by rw [ht₂]; rfl
  have hfind₁ : (st.emotions (a₁.sessionKey.getD "")).find?
      (fun q => q.2.trackId == a₁.trackId.getD "") = none := by
    rw [hgd₁, hempty]
    rfl
  have hcol₁ : ∀ s, (storeEmotion now₁ st a₁).2.emotions s
      = if s = sk then [(1, mkEmotionData a₁ now₁)] else st.emotions s := by
    intro s
    rw [storeEmotion_notfound_eq hv₁ hfind₁]
    dsimp only
    rw [hgd₁, hempty]
    by_cases hs : s = sk <;> simp [hs, freshId]
  have hfind₂ : (((storeEmotion now₁ st a₁).2).emotions (a₂.sessionKey.getD "")).find?
      (fun q => q.2.trackId == a₂.trackId.getD "") = none := by
    rw [hgd₂, hcol₁ sk, if_pos rfl, htd₂]
    have hmm : ((mkEmotionData a₁ now₁).trackId == t₂) = false := by
      simp [mkEmotionData, htd₁]
      exact hne
    simp [List.find?, hmm]
  rw [storeEmotion_notfound_eq hv₂ hfind₂]
  dsimp only
  rw [hgd₂, if_pos rfl, hcol₁ sk, if_pos rfl]
  simp [freshId]

/-- C1: Starting from the empty store, after any sequence of `tagTrack`
(`storeEmotion`) calls every session holds at most one emotion record
per `trackId`; two sequential calls with the same sessionKey and trackId
leave exactly one record for that trackId, carrying the second call's
trackTitle/artist/emotion/group and timestamp; two calls with distinct
trackIds on an empty session leave exactly two records. -/
theorem tagTrack_at_most_one_per_track :
    (∀ (calls : List (Nat × StoreEmotionArgs)) (sk tid : String),
        tcount ((runStoreEmotions calls emptyStore).emotions sk) tid ≤ 1)
    ∧ (∀ (st : Store) (now₁ now₂ : Nat) (a₁ a₂ : StoreEmotionArgs)
        (sk tid : String), storeWf st →
        a₁.sessionKey = some sk → a₂.sessionKey = some sk →
        a₁.trackId = some tid → a₂.trackId = some tid →
        (falsy a₂.sessionKey || falsy a₂.trackId || falsy a₂.trackTitle
          || falsy a₂.artist || falsy a₂.emotion) = false →
        ∃ id, (((storeEmotion now₂ (storeEmotion now₁ st a₁).2 a₂).2).emotions
            sk).filter (fun q => q.2.trackId == tid)
          = [(id, mkEmotionData a₂ now₂)])
    ∧ (∀ (st : Store) (now₁ now₂ : Nat) (a₁ a₂ : StoreEmotionArgs)
        (sk t₁ t₂ : String),
        st.emotions sk = [] →
        a₁.sessionKey = some sk → a₂.sessionKey = some sk →
        a₁.trackId = some t₁ → a₂.trackId = some t₂ → t₁ ≠ t₂ →
        (falsy a₁.sessionKey || falsy a₁.trackId || falsy a₁.trackTitle
          || falsy a₁.artist || falsy a₁.emotion) = false →
        (falsy a₂.sessionKey || falsy a₂.trackId || falsy a₂.trackTitle
          || falsy a₂.artist || falsy a₂.emotion) = false →
        ((storeEmotion now₂ (storeEmotion now₁ st a₁).2 a₂).2).emotions sk
          = [(1, mkEmotionData a₁ now₁), (2, mkEmotionData a₂ now₂)]) := by
  refine ⟨?_, ?_, storeEmotion_two_tracks⟩
  · intro calls sk tid
    exact ((runStoreEmotions_wf calls emptyStore storeWf_empty) sk).2 tid
  · intro st now₁ now₂ a₁ a₂ sk tid hwf hsk₁ hsk₂ ht₁ ht₂ hv₂
    have hwf₁ : storeWf (storeEmotion now₁ st a₁).2 :=
      storeEmotion_preserves_storeWf now₁ st a₁ hwf
    have h := storeEmotion_filter_eq now₂ (storeEmotion now₁ st a₁).2 a₂ hv₂
      (hwf₁ (a₂.sessionKey.getD ""))
    rw [hsk₂, ht₂] at h
    exact h

/-- Witness for C1 at concrete calls: re-tagging `T1` keeps one record
with the second call's data; tagging `T1` then `T2` yields two records. -/
theorem tagTrack_at_most_one_per_track_witness :
    tcount ((runStoreEmotions [(10, sampleArgs₁), (20, sampleArgs₂)]
        emptyStore).emotions "SK1") "T1" ≤ 1
    ∧ (∃ id, (((storeEmotion 20 (storeEmotion 10 emptyStore sampleArgs₁).2
          sampleArgs₂).2).emotions "SK1").filter
          (fun q => q.2.trackId == "T1")
        = [(id, mkEmotionData sampleArgs₂ 20)])
    ∧ ((storeEmotion 30 (storeEmotion 10 emptyStore sampleArgs₁).2
          sampleArgs₃).2).emotions "SK1"
        = [(1, mkEmotionData sampleArgs₁ 10), (2, mkEmotionData sampleArgs₃ 30)] :=
  ⟨tagTrack_at_most_one_per_track.1 [(10, sampleArgs₁), (20, sampleArgs₂)]
      "SK1" "T1",
   tagTrack_at_most_one_per_track.2.1 emptyStore 10 20 sampleArgs₁ sampleArgs₂
      "SK1" "T1" storeWf_empty rfl rfl rfl rfl (by decide),
   tagTrack_at_most_one_per_track.2.2 emptyStore 10 30 sampleArgs₁ sampleArgs₃
      "SK1" "T1" "T2" rfl rfl rfl rfl rfl (by decide) (by decide) (by decide)⟩

/-! ## Claim C8 -/

/-- C8: `storeEmotion` fails with `InvalidArgument` exactly when one of
sessionKey, trackId, trackTitle, artist, emotion is missing or empty
(`group`/`broadgroup` are not inspected), and on such a failure the
store state — in particular every emotion collection — is unchanged. -/
theorem storeEmotion_invalid_iff (now : Nat) (st : Store) (a : StoreEmotionArgs) :
    ((storeEmotion now st a).1 = .error .invalidArgument
      ↔ (falsy a.sessionKey || falsy a.trackId || falsy a.trackTitle
          || falsy a.artist || falsy a.emotion) = true)
    ∧ ((falsy a.sessionKey || falsy a.trackId || falsy a.trackTitle
          || falsy a.artist || falsy a.emotion) = true →
        (storeEmotion now st a).2 = st) := by
  by_cases hv : (falsy a.sessionKey || falsy a.trackId || falsy a.trackTitle
      || falsy a.artist || falsy a.emotion) = true
  · rw [storeEmotion_invalid_eq hv]
    exact ⟨⟨fun _ => hv, fun _ => rfl⟩, fun _ => rfl⟩
  · rw [Bool.not_eq_true] at hv
    constructor
    · constructor
      · intro hres
        cases hfind : (st.emotions (a.sessionKey.getD "")).find?
            (fun q => q.2.trackId == a.trackId.getD "") with
        | some r =>
          rw [storeEmotion_found_eq hv hfind] at hres
          cases hres
        | none =>
          rw [storeEmotion_notfound_eq hv hfind] at hres
          cases hres
      · intro h
        rw [h] at hv
        cases hv
    · intro h
      rw [h] at hv
      cases hv

/-- Witness for C8 at a concrete call with a missing `artist`. -/
theorem storeEmotion_invalid_iff_witness :
    ((storeEmotion 5 sampleStore sampleArgsBad).1 = .error .invalidArgument
      ↔ (falsy sampleArgsBad.sessionKey || falsy sampleArgsBad.trackId
          || falsy sampleArgsBad.trackTitle || falsy sampleArgsBad.artist
          || falsy sampleArgsBad.emotion) = true)
    ∧ ((falsy sampleArgsBad.sessionKey || falsy sampleArgsBad.trackId
          || falsy sampleArgsBad.trackTitle || falsy sampleArgsBad.artist
          || falsy sampleArgsBad.emotion) = true →
        (storeEmotion 5 sampleStore sampleArgsBad).2 = sampleStore) :=
  storeEmotion_invalid_iff 5 sampleStore sampleArgsBad

/-! ## Claim C7 -/

theorem falsy_some_false {s : String} (h : s ≠ "") : falsy (some s) = false := by
  unfold falsy
  rw [Bool.eq_false_iff]
  intro he
  exact h ((String.isEmpty_iff s).mp he)

theorem tsDesc_sorted (col : EmotionCol) :
    (col.mergeSort tsDesc).Pairwise
      (fun a b => b.2.timestamp ≤ a.2.timestamp) := by
  have h := @List.sorted_mergeSort (Nat × EmotionData) tsDesc
    (fun a b c h₁ h₂ => by
      unfold tsDesc at *
      simp only [decide_eq_true_eq] at *
      omega)
    (fun a b => by
      unfold tsDesc
      simpa [Bool.or_eq_true, decide_eq_true_eq] using
        le_total b.2.timestamp a.2.timestamp) col
  exact h.imp (fun hab => by
    unfold tsDesc at hab
    simpa using hab)

/-- C7: `getEmotions` with a valid sessionKey returns all of the
session's emotion records ordered by timestamp descending; an empty
collection yields `[]` with no error; and when no Session document
exists for the key, one is created with `createdAt` and `lastLogin` set
to the server time before the query proceeds, while an existing document
leaves the store untouched. -/
theorem getEmotions_spec (now : Nat) (st : Store) (key : String)
    (hkey : key ≠ "") :
    (∃ l, (getEmotions now st (some key)).1 = .ok l
      ∧ l.Perm (st.emotions key)
      ∧ l.Pairwise (fun a b => b.2.timestamp ≤ a.2.timestamp)
      ∧ (st.emotions key = [] → l = []))
    ∧ (st.users key = none →
        ((getEmotions now st (some key)).2).users key
          = some { username := none, lastLogin := some now,
                   createdAt := some now, userInfo := none })
    ∧ (∀ d, st.users key = some d → (getEmotions now st (some key)).2 = st) := by
  have hfalsy : falsy (some key) = false := falsy_some_false hkey
  cases hu : st.users key with
  | some d =>
    have hres : getEmotions now st (some key)
        = (.ok ((st.emotions key).mergeSort tsDesc), st) := by
      unfold getEmotions
      simp [hfalsy, hu]
    rw [hres]
    refine ⟨⟨(st.emotions key).mergeSort tsDesc, rfl,
        List.mergeSort_perm _ _, tsDesc_sorted _, ?_⟩, ?_, ?_⟩
    · intro h
      rw [h]
      simp
    · intro h
      exact Option.noConfusion h
    · intro _ _
      rfl
  | none =>
    have hres : getEmotions now st (some key)
        = (.ok ((st.emotions key).mergeSort tsDesc),
           { st with users := fun s =>
               if s = key then
                 some { username := none, lastLogin := some now,
                        createdAt := some now, userInfo := none }
               else st.users s }) := by
      unfold getEmotions
      simp [hfalsy, hu]
    rw [hres]
    refine ⟨⟨(st.emotions key).mergeSort tsDesc, rfl,
        List.mergeSort_perm _ _, tsDesc_sorted _, ?_⟩, ?_, ?_⟩
    · intro h
      rw [h]
      simp
    · intro _
      simp
    · intro d hd
      exact Option.noConfusion hd

/-- Witness for C7: fetching the emotions of session `SK1` from the
sample store (one record, session document present). -/
theorem getEmotions_spec_witness :
    (∃ l, (getEmotions 99 sampleStore (some "SK1")).1 = .ok l
      ∧ l.Perm (sampleStore.emotions "SK1")
      ∧ l.Pairwise (fun a b => b.2.timestamp ≤ a.2.timestamp)
      ∧ (sampleStore.emotions "SK1" = [] → l = []))
    ∧ (sampleStore.users "SK1" = none →
        ((getEmotions 99 sampleStore (some "SK1")).2).users "SK1"
          = some { username := none, lastLogin := some 99,
                   createdAt := some 99, userInfo := none })
    ∧ (∀ d, sampleStore.users "SK1" = some d →
        (getEmotions 99 sampleStore (some "SK1")).2 = sampleStore) :=
  getEmotions_spec 99 sampleStore "SK1" (by decide)

/-! ## Claim C9 -/

/-- Deleting every snapshotted document empties the collection. -/
theorem filter_not_contains_self (col : EmotionCol) :
    col.filter (fun r => !((col.map Prod.fst).contains r.1)) = [] := by
  apply List.filter_eq_nil_iff.mpr
  intro r hr
  simp only [Bool.not_eq_true', Bool.not_eq_false]
  exact List.elem_eq_true_of_mem (List.mem_map_of_mem Prod.fst hr)

/-- The list returned by `getEmotions` is the sorted emotion collection,
whatever the session-document side effect does. -/
theorem getEmotions_fst (now : Nat) (st : Store) (key : String)
    (hkey : key ≠ "") :
    (getEmotions now st (some key)).1
      = .ok ((st.emotions key).mergeSort tsDesc) := by
  unfold getEmotions
  simp only [falsy_some_false hkey, Bool.false_eq_true, if_false,
    Option.getD_some]
  cases hu : st.users key <;> simp

/-- C9: `deleteEmotionHistory` removes the session's entire emotion
collection in one atomic batch: the post-state is either unchanged (the
commit failed or validation failed) or the collection is empty — never a
partial deletion; on success the collection is empty and an immediately
following `getEmotions` on the same session returns the empty list. -/
theorem deleteEmotionHistory_atomic (ok : Bool) (st : Store) (key : String)
    (hkey : key ≠ "") :
    ((deleteEmotionHistory ok st (some key)).2 = st
      ∨ ((deleteEmotionHistory ok st (some key)).2).emotions key = [])
    ∧ ((deleteEmotionHistory ok st (some key)).1 = .ok () →
        ((deleteEmotionHistory ok st (some key)).2).emotions key = []
        ∧ ∀ now, (getEmotions now (deleteEmotionHistory ok st (some key)).2
            (some key)).1 = .ok [])
    ∧ ((deleteEmotionHistory ok st (some key)).1 ≠ .ok () →
        (deleteEmotionHistory ok st (some key)).2 = st) := by
  have hfalsy : falsy (some key) = false := falsy_some_false hkey
  cases ok with
  | false =>
    have hres : deleteEmotionHistory false st (some key)
        = (.error .storeFailure, st) := by
      unfold deleteEmotionHistory
      simp [hfalsy]
    rw [hres]
    refine ⟨Or.inl rfl, ?_, fun _ => rfl⟩
    intro h
    cases h
  | true =>
    have hres : deleteEmotionHistory true st (some key)
        = (.ok (), { st with
            emotions := fun s =>
                          if s = key then
                            (st.emotions s).filter
                              (fun r => !(((st.emotions key).map Prod.fst).contains r.1))
                          else st.emotions s }) := by
      unfold deleteEmotionHistory
      simp [hfalsy]
    rw [hres]
    have hempty : (if key = key then
        (st.emotions key).filter
          (fun r => !(((st.emotions key).map Prod.fst).contains r.1))
        else st.emotions key) = [] := by
      rw [if_pos rfl]
      exact filter_not_contains_self _
    refine ⟨Or.inr hempty, ?_, ?_⟩
    · intro _
      refine ⟨hempty, ?_⟩
      intro now
      rw [getEmotions_fst now _ key hkey]
      dsimp only
      rw [hempty]
      simp
    · intro h
      exact absurd rfl h

/-- Witness for C9: wiping session `SK1` of the sample store empties its
one-record collection and a following `getEmotions` returns `[]`. -/
theorem deleteEmotionHistory_atomic_witness :
    ((deleteEmotionHistory true sampleStore (some "SK1")).2 = sampleStore
      ∨ ((deleteEmotionHistory true sampleStore (some "SK1")).2).emotions "SK1"
          = [])
    ∧ ((deleteEmotionHistory true sampleStore (some "SK1")).1 = .ok () →
        ((deleteEmotionHistory true sampleStore (some "SK1")).2).emotions "SK1"
            = []
        ∧ ∀ now, (getEmotions now
            (deleteEmotionHistory true sampleStore (some "SK1")).2
            (some "SK1")).1 = .ok [])
    ∧ ((deleteEmotionHistory true sampleStore (some "SK1")).1 ≠ .ok () →
        (deleteEmotionHistory true sampleStore (some "SK1")).2 = sampleStore) :=
  deleteEmotionHistory_atomic true sampleStore "SK1" (by decide)

/-! ## Claim C4 -/

/-- C4: `createPlaylists` with an emotions filter matching zero stored
records fails with `NoMatchingRecords` and creates nothing; with a
filter matching N records (membership of the record's `group` field in
the supplied set) it succeeds and appends exactly one new playlist
document to the session, whose `songs` has length N and whose
`createdAt` is the call time; no other collection changes. -/
theorem createPlaylists_spec (now : Nat) (st : Store) (sk grp : String)
    (name : Option String) (emos : List String)
    (hsk : sk ≠ "") (hgrp : grp ≠ "") (hemos : emos ≠ []) :
    ((st.emotions sk).filter (fun r => matchGroup r.2.group emos) = [] →
      createPlaylists now st (some sk) (some grp) name (some emos)
        = (.error .noMatchingRecords, st))
    ∧ ((st.emotions sk).filter (fun r => matchGroup r.2.group emos) ≠ [] →
      ∃ pid pd,
        (createPlaylists now st (some sk) (some grp) name (some emos)).1
            = .ok pd.group
        ∧ (createPlaylists now st (some sk) (some grp) name
              (some emos)).2.playlists sk
            = st.playlists sk ++ [(pid, pd)]
        ∧ pd.songs.length
            = ((st.emotions sk).filter
                (fun r => matchGroup r.2.group emos)).length
        ∧ pd.createdAt = now
        ∧ (∀ s, s ≠ sk →
            (createPlaylists now st (some sk) (some grp) name
              (some emos)).2.playlists s = st.playlists s)
        ∧ (createPlaylists now st (some sk) (some grp) name
              (some emos)).2.emotions = st.emotions
        ∧ (createPlaylists now st (some sk) (some grp) name
              (some emos)).2.users = st.users) := by
  have hskf : falsy (some sk) = false := falsy_some_false hsk
  have hgrpf : falsy (some grp) = false := falsy_some_false hgrp
  have hemosf : emos.isEmpty = false := by
    simp [List.isEmpty_iff, hemos]
  constructor
  · intro hmatch
    unfold createPlaylists
    simp [hskf, hgrpf, hemosf, hmatch]
  · intro hmatch
    have hmatchf : ((st.emotions sk).filter
        (fun r => matchGroup r.2.group emos)).isEmpty = false := by
      simp [List.isEmpty_iff, hmatch]
    refine ⟨freshId (st.playlists sk),
      { name := name, group := grp, emotions := emos,
        songs := ((st.emotions sk).filter
            (fun r => matchGroup r.2.group emos)).map (fun r =>
          { trackId := r.2.trackId, trackTitle := r.2.trackTitle,
            artist := r.2.artist, emotion := r.2.group }),
        createdAt := now }, ?_, ?_, ?_, rfl, ?_, ?_, ?_⟩
    · unfold createPlaylists
      simp [hskf, hgrpf, hemosf, hmatchf]
    · unfold createPlaylists
      simp [hskf, hgrpf, hemosf, hmatchf]
    · simp
    · intro s hs
      unfold createPlaylists
      simp [hskf, hgrpf, hemosf, hmatchf, hs]
    · unfold createPlaylists
      simp [hskf, hgrpf, hemosf, hmatchf]
    · unfold createPlaylists
      simp [hskf, hgrpf, hemosf, hmatchf]

/-- Witness for C4: building from the sample store with filter
`["happy"]` (one matching record) and with filter `["zzz"]` (none). -/
theorem createPlaylists_spec_witness :
    ((sampleStore.emotions "SK1").filter
        (fun r => matchGroup r.2.group ["zzz"]) = [] →
      createPlaylists 50 sampleStore (some "SK1") (some "grp") (some "P1")
          (some ["zzz"])
        = (.error .noMatchingRecords, sampleStore))
    ∧ ((sampleStore.emotions "SK1").filter
        (fun r => matchGroup r.2.group ["happy"]) ≠ [] →
      ∃ pid pd,
        (createPlaylists 50 sampleStore (some "SK1") (some "grp") (some "P1")
            (some ["happy"])).1 = .ok pd.group
        ∧ (createPlaylists 50 sampleStore (some "SK1") (some "grp") (some "P1")
              (some ["happy"])).2.playlists "SK1"
            = sampleStore.playlists "SK1" ++ [(pid, pd)]
        ∧ pd.songs.length
            = ((sampleStore.emotions "SK1").filter
                (fun r => matchGroup r.2.group ["happy"])).length
        ∧ pd.createdAt = 50
        ∧ (∀ s, s ≠ "SK1" →
            (createPlaylists 50 sampleStore (some "SK1") (some "grp")
              (some "P1") (some ["happy"])).2.playlists s
              = sampleStore.playlists s)
        ∧ (createPlaylists 50 sampleStore (some "SK1") (some "grp") (some "P1")
              (some ["happy"])).2.emotions = sampleStore.emotions
        ∧ (createPlaylists 50 sampleStore (some "SK1") (some "grp") (some "P1")
              (some ["happy"])).2.users = sampleStore.users) :=
  ⟨(createPlaylists_spec 50 sampleStore "SK1" "grp" (some "P1") ["zzz"]
      (by decide) (by decide) (by decide)).1,
   (createPlaylists_spec 50 sampleStore "SK1" "grp" (some "P1") ["happy"]
      (by decide) (by decide) (by decide)).2⟩

/-! ## Claim C5 -/

/-- C5 (code bug): on success `createPlaylists` returns the input
`group` field as the `playlistId`, not the freshly created document's
store-generated identity. Two successive successful builds with the same
group both return the identical identifier `"happy"`, even though the
two created playlist documents carry the distinct store identities
`1` and `2`. -/
theorem createPlaylists_returns_group_not_identity :
    (createPlaylists 10 sampleStore (some "SK1") (some "happy") (some "P1")
        (some ["happy"])).1 = .ok "happy"
    ∧ (createPlaylists 20
          (createPlaylists 10 sampleStore (some "SK1") (some "happy")
            (some "P1") (some ["happy"])).2
          (some "SK1") (some "happy") (some "P2") (some ["happy"])).1
        = .ok "happy"
    ∧ ((createPlaylists 20
          (createPlaylists 10 sampleStore (some "SK1") (some "happy")
            (some "P1") (some ["happy"])).2
          (some "SK1") (some "happy") (some "P2") (some ["happy"])).2.playlists
          "SK1").map Prod.fst = [1, 2] :=
  ⟨rfl, rfl, by decide⟩

/-! ## Claim C6 -/

/-- C6 counterexample: `lastfmAuth` writes the Session document with a
full (non-merge) set. On the sample store, whose `SK1` document holds
`userInfo.realname = "R"` and `createdAt = 1`, a successful
authentication leaves a document with `userInfo` and `createdAt`
removed — the pre-existing fields are not left unchanged. -/
theorem lastfmAuth_overwrites_counterexample :
    ((lastfmAuth 5 sampleStore (some "alice") (some "pw")
        (.session (some "SK1") "alice")).2.users "SK1")
      = some { username := some "alice", lastLogin := some 5,
               createdAt := none, userInfo := none }
    ∧ (sampleStore.users "SK1").bind SessionDoc.userInfo
        = some { realname := some "R", createdAt := some 1 }
    ∧ ((lastfmAuth 5 sampleStore (some "alice") (some "pw")
          (.session (some "SK1") "alice")).2.users "SK1").bind
          SessionDoc.userInfo
        ≠ (sampleStore.users "SK1").bind SessionDoc.userInfo :=
  ⟨rfl, rfl, by decide⟩

/-- C6 (amended): a successful `lastfmAuth` replaces the Session
document keyed by the returned session key with exactly
`{username, lastLogin}` — a full-document set that drops every other
field of a pre-existing document (`createdAt`, `userInfo`) — and leaves
every other key of the users collection unchanged. -/
theorem lastfmAuth_sets_username_lastLogin (now : Nat) (st : Store)
    (username password : Option String) (key name : String)
    (hu : falsy username = false) (hp : falsy password = false)
    (hkey : key ≠ "") :
    (lastfmAuth now st username password (.session (some key) name)).1
        = .ok (key, name)
    ∧ (lastfmAuth now st username password
          (.session (some key) name)).2.users key
        = some { username := some name, lastLogin := some now,
                 createdAt := none, userInfo := none }
    ∧ (∀ k, k ≠ key →
        (lastfmAuth now st username password
            (.session (some key) name)).2.users k = st.users k) := by
  have hres : lastfmAuth now st username password (.session (some key) name)
      = (.ok (key, name),
         { st with users := fun s =>
             if s = key then
               some { username := some name, lastLogin := some now,
                      createdAt := none, userInfo := none }
             else st.users s }) := by
    unfold lastfmAuth
    simp [hu, hp, falsy_some_false hkey]
  rw [hres]
  refine ⟨rfl, ?_, ?_⟩
  · dsimp only
    rw [if_pos rfl]
  · intro k hk
    dsimp only
    rw [if_neg hk]

/-- Witness for C6's amended statement at the sample store. -/
theorem lastfmAuth_sets_username_lastLogin_witness :
    (lastfmAuth 5 sampleStore (some "alice") (some "pw")
        (.session (some "SK1") "alice")).1 = .ok ("SK1", "alice")
    ∧ (lastfmAuth 5 sampleStore (some "alice") (some "pw")
          (.session (some "SK1") "alice")).2.users "SK1"
        = some { username := some "alice", lastLogin := some 5,
                 createdAt := none, userInfo := none }
    ∧ (∀ k, k ≠ "SK1" →
        (lastfmAuth 5 sampleStore (some "alice") (some "pw")
            (.session (some "SK1") "alice")).2.users k
          = sampleStore.users k) :=
  lastfmAuth_sets_username_lastLogin 5 sampleStore (some "alice") (some "pw")
    "SK1" "alice" (by decide) (by decide) (by decide)

/-! ## Claim C10 -/

/-- C10: `firstLogin` performs no presence check on its inputs: for
every call — in particular with `sessionKey` or `uid` missing or empty —
it never produces the `InvalidArgument` pre-check failure; its first
observable access is the store lookup of the `uid` document, and every
failure it returns is the single generic error raised after that store
(or the subsequent network) access was attempted. -/
theorem firstLogin_no_precheck (now : Nat) (st : Store)
    (sessionKey uid : Option String) (resp : UserInfoResp) :
    (firstLogin now st sessionKey uid resp).1 ≠ .error .invalidArgument
    ∧ (firstLogin now st sessionKey uid resp).2.2.head? = some (.storeGet uid)
    ∧ (∀ e, (firstLogin now st sessionKey uid resp).1 = .error e →
        ∃ m, e = .generic m) := by
  have hcases : (firstLogin now st sessionKey uid resp).1 = .ok true
      ∨ (firstLogin now st sessionKey uid resp).1
          = .error (.generic "Failed to fetch real name") := by
    unfold firstLogin
    split
    · right
      rfl
    · dsimp only
      split
      · left
        rfl
      · split
        · right
          rfl
        · left
          rfl
  have htrace : (firstLogin now st sessionKey uid resp).2.2.head?
      = some (.storeGet uid) := by
    unfold firstLogin
    split
    · rfl
    · dsimp only
      split
      · rfl
      · split <;> rfl
  refine ⟨?_, htrace, ?_⟩
  · rcases hcases with h | h <;> rw [h] <;> simp
  · intro e he
    rcases hcases with h | h <;> rw [h] at he
    · cases he
    · injection he with he
      exact ⟨_, he.symm⟩

/-- Witness for C10: calling `firstLogin` with both inputs missing does
not produce `InvalidArgument`, attempts the store lookup first, and only
fails generically. -/
theorem firstLogin_no_precheck_witness :
    (firstLogin 7 sampleStore none none (.user (some "R"))).1
        ≠ .error .invalidArgument
    ∧ (firstLogin 7 sampleStore none none (.user (some "R"))).2.2.head?
        = some (.storeGet none)
    ∧ (∀ e, (firstLogin 7 sampleStore none none (.user (some "R"))).1
          = .error e → ∃ m, e = .generic m) :=
  firstLogin_no_precheck 7 sampleStore none none (.user (some "R"))

end MusicMap
